import Mathlib

/-!
Verification of the certificate-checker parsing and normalisation logic
(`scripts/check_certificates.py`) against its natural-language specification.

The Python code is shallowly embedded over `List Char` (one `Char` per
Unicode code point, as in Python `str`).  Strings are written with the
helper `chars`.  Regular expressions used by the source are embedded as
hand-written scanners that are faithful to the concrete patterns the
source uses (each scanner carries a comment naming the pattern).

Unicode caveats, which do not affect any statement below: Python's `\w`,
`\d`, `\s`, `str.strip`, `str.lower` are Unicode-aware; the embedding
models the ASCII behaviour (plus the explicit emoji code-point ranges
that the source strips), which agrees with Python on every input made
of ASCII plus pictographic symbols — the only alphabet the repository's
data uses.
-/

/-- Code points of a string literal, the representation of Python `str`. -/
def chars (s : String) : List Char := s.data

/-- Python whitespace for `str.strip` / regex `\s` (ASCII part):
space, tab, newline, carriage return, vertical tab, form feed. -/
def pyWS (c : Char) : Bool :=
  c = ' ' || c = '\t' || c = '\n' || c = '\r' || c = '\x0b' || c = '\x0c'

/-- `startsL p l` is Python `l.startswith(p)`. -/
def startsL : List Char → List Char → Bool
  | [], _ => true
  | _ :: _, [] => false
  | a :: as, b :: bs => a == b && startsL as bs

/-- `containsSub p l` is Python `p in l` (substring containment). -/
def containsSub : List Char → List Char → Bool
  | p, [] => startsL p []
  | p, l@(_ :: t) => startsL p l || containsSub p t

/-- Leading-whitespace removal, Python `lstrip`-fragment of `strip`. -/
def dropWS (l : List Char) : List Char := l.dropWhile pyWS

/-- Python `str.strip()`: drop leading and trailing whitespace. -/
def trimL (l : List Char) : List Char :=
  ((l.dropWhile pyWS).reverse.dropWhile pyWS).reverse

/-- Worker for `collapseWS`; the flag says whether the previous character
was whitespace (so the current run has already emitted its space). -/
def collapseAux : Bool → List Char → List Char
  | _, [] => []
  | prev, c :: t =>
    if pyWS c then
      (if prev then collapseAux true t else ' ' :: collapseAux true t)
    else c :: collapseAux false t

/-- `re.sub(r'\s+', ' ', l)`: replace each maximal whitespace run by one space. -/
def collapseWS (l : List Char) : List Char := collapseAux false l

/-- `clean_value` (line 53): collapse whitespace runs, then strip. -/
def clean_value (raw : List Char) : List Char := trimL (collapseWS raw)

/-- Scanner for the first colon of `re.split(r'[:：]\s*', line, maxsplit=1)`:
returns the part before the first (ASCII or full-width) colon and the part
after it with the whitespace belonging to the separator dropped. -/
def splitColon : List Char → Option (List Char × List Char)
  | [] => none
  | c :: t =>
    if c = ':' ∨ c = '：' then some ([], t.dropWhile pyWS)
    else
      match splitColon t with
      | some (k, r) => some (c :: k, r)
      | none => none

/-- `split_kv` (line 46): split on the first ASCII or full-width colon;
without a separator the whole stripped line is the key and the value is empty. -/
def split_kv (l : List Char) : List Char × List Char :=
  match splitColon l with
  | some (k, r) => (trimL k, trimL r)
  | none => (trimL l, [])

/-- Python `str.lower()` (ASCII range, all keys compared are ASCII). -/
def toLowerL (l : List Char) : List Char := l.map Char.toLower

/-- The pictographic ranges removed by the first regex of
`strip_emoji_and_misc` (line 180):
`[\U0001F300-\U0001F6FF\U0001F900-\U0001F9FF\U00002600-\U00002BFF]`. -/
def emojiRange (c : Char) : Bool :=
  (0x1F300 ≤ c.toNat && c.toNat ≤ 0x1F6FF) ||
  (0x1F900 ≤ c.toNat && c.toNat ≤ 0x1F9FF) ||
  (0x2600 ≤ c.toNat && c.toNat ≤ 0x2BFF)

/-- Characters kept by the second regex of `strip_emoji_and_misc`
(line 182), `re.sub(r'[^\w\s\-\._/():,]', '', s)`: word characters
(`\w`, modelled as ASCII alphanumerics plus underscore), whitespace, and
the literal punctuation `-._/():,`. -/
def keptChar (c : Char) : Bool :=
  c.isAlphanum || c = '_' || pyWS c ||
  c = '-' || c = '.' || c = '/' || c = '(' || c = ')' || c = ':' || c = ','

/-- `strip_emoji_and_misc` (line 175): remove the pictographic ranges,
remove every character outside the kept class, then strip. -/
def strip_emoji_and_misc (s : List Char) : List Char :=
  if s = [] then []
  else trimL ((s.filter (fun c => !emojiRange c)).filter keptChar)

/-- The canonical status categories of the spec (`StatusCategory`). -/
inductive StatusCategory where
  | Valid | Revoked | Expired | Unknown
deriving DecidableEq, Repr

/-- The keyword cascade of `normalise_status` (lines 194-202): every
branch of the source returns `(category, raw_status)` with the same
second component, so the decision is factored out here over the cleaned
lower-cased text. -/
def codeCategorize (cleaned : List Char) : StatusCategory :=
  if containsSub (chars "revok") cleaned || containsSub (chars "revoked") cleaned then
    .Revoked
  else if containsSub (chars "expired") cleaned || containsSub (chars "expire") cleaned then
    .Expired
  else if [chars "good", chars "valid", chars "active", chars "match",
           chars "match with p12", chars "provisions all devices"].any
            (fun k => containsSub k cleaned) then
    .Valid
  else .Unknown

/-- `normalise_status` (line 185): clean and lower-case the raw text, then
test the keyword groups in order; the raw input is always returned as the
second component. -/
def normalise_status (raw : List Char) : StatusCategory × List Char :=
  if raw = [] then (.Unknown, raw)
  else (codeCategorize (toLowerL (strip_emoji_and_misc raw)), raw)

/-- The cleaned, lower-cased form of a raw status that the keyword groups
are tested against. -/
def statusCleaned (raw : List Char) : List Char := toLowerL (strip_emoji_and_misc raw)

/-- The spec's reading of the keyword decision (spec section 4.3): over the
cleaned lower-cased input, in order: a `revok` substring gives Revoked,
else `expired`/`expire` gives Expired, else one of `good`, `valid`,
`active`, `match`, `provisions all devices` gives Valid, else Unknown. -/
def specCategorize (cleaned : List Char) : StatusCategory :=
  if containsSub (chars "revok") cleaned then .Revoked
  else if containsSub (chars "expired") cleaned || containsSub (chars "expire") cleaned then .Expired
  else if containsSub (chars "good") cleaned || containsSub (chars "valid") cleaned ||
          containsSub (chars "active") cleaned || containsSub (chars "match") cleaned ||
          containsSub (chars "provisions all devices") cleaned then .Valid
  else .Unknown

/-! ### Date normalisation (`convert_to_dd_mm_yy`, lines 204-262) -/

/-- State of the scanner for `re.sub(r'\(.*?\)', '', s)` (line 209):
either outside a parenthesised group, or inside one with the buffered
characters (in reverse) that will be emitted if the group never closes. -/
inductive PSt where
  | outside
  | inside (buf : List Char)

/-- Scanner for `re.sub(r'\(.*?\)', '', s)`: each `(`...`)` group (shortest
match, `.` not crossing a newline) is deleted; an unclosed `(` is kept. -/
def removeParensAux : PSt → List Char → List Char
  | .outside, [] => []
  | .outside, c :: t =>
    if c = '(' then removeParensAux (.inside []) t
    else c :: removeParensAux .outside t
  | .inside buf, [] => '(' :: buf.reverse
  | .inside buf, c :: t =>
    if c = ')' then removeParensAux .outside t
    else if c = '\n' then ('(' :: buf.reverse) ++ '\n' :: removeParensAux .outside t
    else removeParensAux (.inside (c :: buf)) t

/-- `re.sub(r'\(.*?\)', '', s)` over code points. -/
def removeParens (l : List Char) : List Char := removeParensAux .outside l

/-- State of the scanner for `re.sub(r'GMT[+-]?\d{1,2}[:0-9]*', '', s)`
(line 210): how much of a candidate `GMT` token has been seen.  `g4`
remembers the optional sign character; `g5` is inside the digit/colon run
of a confirmed match (at least one digit seen). -/
inductive GSt where
  | s0 | g1 | g2 | g3 | g4 (sign : Char) | g5

/-- Scanner for `re.sub(r'GMT[+-]?\d{1,2}[:0-9]*', '', s)`: `GMT`,
an optional sign, at least one digit, then a maximal run over `[:0-9]`
is deleted; a bare `GMT` without digits is kept. -/
def removeGMTAux : GSt → List Char → List Char
  | .s0, [] => []
  | .g1, [] => ['G']
  | .g2, [] => ['G', 'M']
  | .g3, [] => ['G', 'M', 'T']
  | .g4 s, [] => ['G', 'M', 'T', s]
  | .g5, [] => []
  | .s0, c :: t => if c = 'G' then removeGMTAux .g1 t else c :: removeGMTAux .s0 t
  | .g1, c :: t =>
    if c = 'M' then removeGMTAux .g2 t
    else if c = 'G' then 'G' :: removeGMTAux .g1 t
    else 'G' :: c :: removeGMTAux .s0 t
  | .g2, c :: t =>
    if c = 'T' then removeGMTAux .g3 t
    else if c = 'G' then 'G' :: 'M' :: removeGMTAux .g1 t
    else 'G' :: 'M' :: c :: removeGMTAux .s0 t
  | .g3, c :: t =>
    if c.isDigit then removeGMTAux .g5 t
    else if c = '+' ∨ c = '-' then removeGMTAux (.g4 c) t
    else if c = 'G' then 'G' :: 'M' :: 'T' :: removeGMTAux .g1 t
    else 'G' :: 'M' :: 'T' :: c :: removeGMTAux .s0 t
  | .g4 s, c :: t =>
    if c.isDigit then removeGMTAux .g5 t
    else if c = 'G' then 'G' :: 'M' :: 'T' :: s :: removeGMTAux .g1 t
    else 'G' :: 'M' :: 'T' :: s :: c :: removeGMTAux .s0 t
  | .g5, c :: t =>
    if c.isDigit || c = ':' then removeGMTAux .g5 t
    else if c = 'G' then removeGMTAux .g1 t
    else c :: removeGMTAux .s0 t

/-- `re.sub(r'GMT[+-]?\d{1,2}[:0-9]*', '', s)` over code points. -/
def removeGMT (l : List Char) : List Char := removeGMTAux .s0 l

/-- The preprocessing of `convert_to_dd_mm_yy` (lines 209-210): delete
parenthesised text, strip, delete `GMT` offsets, strip. -/
def preprocessDate (l : List Char) : List Char :=
  trimL (removeGMT (trimL (removeParens l)))

/-- Numeric value of a digit character. -/
def dval (c : Char) : Nat := c.toNat - '0'.toNat

/-- Value of two digit characters. -/
def dval2 (a b : Char) : Nat := 10 * dval a + dval b

/-- A parsed (possibly not yet validated) date-time. -/
structure DT where
  y : Nat
  m : Nat
  d : Nat
  h : Nat
  mi : Nat
  s : Nat
deriving DecidableEq, Repr

/-- Gregorian leap year, as `datetime` uses. -/
def isLeap (y : Nat) : Bool := (y % 4 = 0 && y % 100 ≠ 0) || y % 400 = 0

/-- Days in a month, as `datetime` validates. -/
def daysInMonth (y m : Nat) : Nat :=
  if m = 2 then (if isLeap y then 29 else 28)
  else if m = 4 ∨ m = 6 ∨ m = 9 ∨ m = 11 then 30
  else 31

/-- The validation performed by the `datetime` constructor: a raising
construction is modelled as `none` (the source catches the error and moves
on).  Seconds up to 61 can be produced by strptime's `%S` pattern but are
rejected here, exactly as `datetime` rejects them. -/
def mkDT (y m d h mi s : Nat) : Option DT :=
  if 1 ≤ y ∧ y ≤ 9999 ∧ 1 ≤ m ∧ m ≤ 12 ∧ 1 ≤ d ∧ d ≤ daysInMonth y m ∧
     h ≤ 23 ∧ mi ≤ 59 ∧ s ≤ 59 then
    some ⟨y, m, d, h, mi, s⟩
  else none

/-- Two-digit zero-padded decimal rendering, as strftime `%d`, `%m`,
`%y`, `%H`, `%M` render their (already range-checked) values. -/
def two (n : Nat) : List Char :=
  [Char.ofNat ('0'.toNat + n / 10 % 10), Char.ofNat ('0'.toNat + n % 10)]

/-- `dt.strftime("%d/%m/%y %H:%M")` (lines 228 and 259). -/
def fmtOut (t : DT) : List Char :=
  two t.d ++ '/' :: two t.m ++ '/' :: two (t.y % 100) ++ ' ' :: two t.h ++ ':' :: two t.mi

/-- Tokens of a strptime format string: a literal character, a whitespace
run (`\s+`), and the numeric / month-name directives used by the source's
formats. -/
inductive Tok where
  | lit (c : Char)
  | ws
  | dm   -- %m : 1[0-2]|0[1-9]|[1-9]
  | dd   -- %d : 3[01]|[12]\d|0[1-9]|[1-9]
  | dH   -- %H : 2[0-3]|[0-1]\d|\d
  | dMi  -- %M : [0-5]\d|\d
  | dS   -- %S : 6[0-1]|[0-5]\d|\d
  | dy   -- %y : \d\d  (pivot: <= 68 -> 2000s, else 1900s)
  | dY   -- %Y : \d\d\d\d
  | db   -- %b : abbreviated month name, case-insensitive

/-- Partially filled strptime environment (missing fields take the
strptime defaults 1900-01-01 00:00:00). -/
structure PEnv where
  y : Option Nat := none
  m : Option Nat := none
  d : Option Nat := none
  h : Option Nat := none
  mi : Option Nat := none
  s : Option Nat := none

/-- strptime's two-digit-year pivot: values up to 68 are 2000s, the rest 1900s. -/
def pivot68 (v : Nat) : Nat := if v ≤ 68 then 2000 + v else 1900 + v

/-- Month number of an abbreviated month name (already lower-cased). -/
def monthAbbr : Char → Char → Char → Option Nat
  | 'j', 'a', 'n' => some 1
  | 'f', 'e', 'b' => some 2
  | 'm', 'a', 'r' => some 3
  | 'a', 'p', 'r' => some 4
  | 'm', 'a', 'y' => some 5
  | 'j', 'u', 'n' => some 6
  | 'j', 'u', 'l' => some 7
  | 'a', 'u', 'g' => some 8
  | 's', 'e', 'p' => some 9
  | 'o', 'c', 't' => some 10
  | 'n', 'o', 'v' => some 11
  | 'd', 'e', 'c' => some 12
  | _, _, _ => none

/-- Run a strptime token list against the input, requiring a full match
(strptime raises on unconverted trailing data).  Each numeric directive
tries its two-digit reading first and then its one-digit reading, exactly
the alternation order of strptime's directive regexes; the `<|>` realises
the regex engine's backtracking. -/
def runToks : List Tok → PEnv → List Char → Option PEnv
  | [], e, l => if l.isEmpty then some e else none
  | .lit c :: ts, e, l =>
    match l with
    | c2 :: l2 => if c2 = c then runToks ts e l2 else none
    | [] => none
  | .ws :: ts, e, l =>
    match l with
    | c :: l2 => if pyWS c then runToks ts e (l2.dropWhile pyWS) else none
    | [] => none
  | .dm :: ts, e, l =>
    (match l with
     | a :: b :: l2 =>
       if a.isDigit && b.isDigit && 1 ≤ dval2 a b && dval2 a b ≤ 12 then
         runToks ts { e with m := some (dval2 a b) } l2
       else none
     | _ => none) <|>
    (match l with
     | a :: l2 => if a.isDigit && 1 ≤ dval a then runToks ts { e with m := some (dval a) } l2 else none
     | [] => none)
  | .dd :: ts, e, l =>
    (match l with
     | a :: b :: l2 =>
       if a.isDigit && b.isDigit && 1 ≤ dval2 a b && dval2 a b ≤ 31 then
         runToks ts { e with d := some (dval2 a b) } l2
       else none
     | _ => none) <|>
    (match l with
     | a :: l2 => if a.isDigit && 1 ≤ dval a then runToks ts { e with d := some (dval a) } l2 else none
     | [] => none)
  | .dH :: ts, e, l =>
    (match l with
     | a :: b :: l2 =>
       if a.isDigit && b.isDigit && dval2 a b ≤ 23 then
         runToks ts { e with h := some (dval2 a b) } l2
       else none
     | _ => none) <|>
    (match l with
     | a :: l2 => if a.isDigit then runToks ts { e with h := some (dval a) } l2 else none
     | [] => none)
  | .dMi :: ts, e, l =>
    (match l with
     | a :: b :: l2 =>
       if a.isDigit && b.isDigit && dval2 a b ≤ 59 then
         runToks ts { e with mi := some (dval2 a b) } l2
       else none
     | _ => none) <|>
    (match l with
     | a :: l2 => if a.isDigit then runToks ts { e with mi := some (dval a) } l2 else none
     | [] => none)
  | .dS :: ts, e, l =>
    (match l with
     | a :: b :: l2 =>
       if a.isDigit && b.isDigit && dval2 a b ≤ 61 then
         runToks ts { e with s := some (dval2 a b) } l2
       else none
     | _ => none) <|>
    (match l with
     | a :: l2 => if a.isDigit then runToks ts { e with s := some (dval a) } l2 else none
     | [] => none)
  | .dy :: ts, e, l =>
    (match l with
     | a :: b :: l2 =>
       if a.isDigit && b.isDigit then
         runToks ts { e with y := some (pivot68 (dval2 a b)) } l2
       else none
     | _ => none)
  | .dY :: ts, e, l =>
    (match l with
     | a :: b :: c :: d :: l2 =>
       if a.isDigit && b.isDigit && c.isDigit && d.isDigit then
         runToks ts { e with y := some (1000 * dval a + 100 * dval b + 10 * dval c + dval d) } l2
       else none
     | _ => none)
  | .db :: ts, e, l =>
    (match l with
     | a :: b :: c :: l2 =>
       match monthAbbr a.toLower b.toLower c.toLower with
       | some mo => runToks ts { e with m := some mo } l2
       | none => none
     | _ => none)

/-- `datetime.strptime(l, fmt)` followed by the `datetime` validation;
missing directives take the strptime defaults 1900-01-01 00:00:00. -/
def strptimeF (toks : List Tok) (l : List Char) : Option DT :=
  match runToks toks {} l with
  | none => none
  | some e => mkDT (e.y.getD 1900) (e.m.getD 1) (e.d.getD 1) (e.h.getD 0) (e.mi.getD 0) (e.s.getD 0)

/-- Format `"%m/%d/%y %H:%M"`. -/
def fmt1 : List Tok := [.dm, .lit '/', .dd, .lit '/', .dy, .ws, .dH, .lit ':', .dMi]
/-- Format `"%d/%m/%y %H:%M"`. -/
def fmt2 : List Tok := [.dd, .lit '/', .dm, .lit '/', .dy, .ws, .dH, .lit ':', .dMi]
/-- Format `"%Y/%m/%d %H:%M"`. -/
def fmt3 : List Tok := [.dY, .lit '/', .dm, .lit '/', .dd, .ws, .dH, .lit ':', .dMi]
/-- Format `"%Y-%m-%d %H:%M:%S"`. -/
def fmt4 : List Tok := [.dY, .lit '-', .dm, .lit '-', .dd, .ws, .dH, .lit ':', .dMi, .lit ':', .dS]
/-- Format `"%d %b %Y %H:%M"`. -/
def fmt5 : List Tok := [.dd, .ws, .db, .ws, .dY, .ws, .dH, .lit ':', .dMi]
/-- Format `"%b %d, %Y %H:%M"`. -/
def fmt6 : List Tok := [.db, .ws, .dd, .lit ',', .ws, .dY, .ws, .dH, .lit ':', .dMi]
/-- Format `"%m/%d/%Y %H:%M"`. -/
def fmt7 : List Tok := [.dm, .lit '/', .dd, .lit '/', .dY, .ws, .dH, .lit ':', .dMi]
/-- Format `"%d/%m/%Y %H:%M"`. -/
def fmt8 : List Tok := [.dd, .lit '/', .dm, .lit '/', .dY, .ws, .dH, .lit ':', .dMi]
/-- Format `"%Y-%m-%d %H:%M"`. -/
def fmt9 : List Tok := [.dY, .lit '-', .dm, .lit '-', .dd, .ws, .dH, .lit ':', .dMi]

/-- The loop over `date_formats` (lines 213-230) at the `datetime` level:
the first format that both matches and validates wins. -/
def formatsDT (l : List Char) : Option DT :=
  strptimeF fmt1 l <|> strptimeF fmt2 l <|> strptimeF fmt3 l <|>
  strptimeF fmt4 l <|> strptimeF fmt5 l <|> strptimeF fmt6 l <|>
  strptimeF fmt7 l <|> strptimeF fmt8 l <|> strptimeF fmt9 l

/-- The loop over `date_formats`, with the matching format rendered by
`strftime("%d/%m/%y %H:%M")`. -/
def tryFormatsAll (l : List Char) : Option (List Char) := (formatsDT l).map fmtOut

/-- Try each element in turn, keeping the first success — the shape of
regex alternation/backtracking over a finite candidate list. -/
def firstP : List α → (α → Option β) → Option β
  | [], _ => none
  | x :: t, f => f x <|> firstP t f

/-- Candidates for `\d{1,2}` in greedy order: the two-digit reading, then
the one-digit reading. -/
def g12 : List Char → List (Nat × List Char)
  | a :: b :: t =>
    if a.isDigit && b.isDigit then [(dval2 a b, t), (dval a, b :: t)]
    else if a.isDigit then [(dval a, b :: t)] else []
  | [a] => if a.isDigit then [(dval a, [])] else []
  | [] => []

/-- Candidates for `\d{2,4}` in greedy order: four, three, then two digits. -/
def g24 (l : List Char) : List (Nat × List Char) :=
  (match l with
   | a :: b :: c :: d :: t =>
     if a.isDigit && b.isDigit && c.isDigit && d.isDigit then
       [(1000 * dval a + 100 * dval b + 10 * dval c + dval d, t)]
     else []
   | _ => []) ++
  (match l with
   | a :: b :: c :: t =>
     if a.isDigit && b.isDigit && c.isDigit then [(100 * dval a + 10 * dval b + dval c, t)]
     else []
   | _ => []) ++
  (match l with
   | a :: b :: t => if a.isDigit && b.isDigit then [(dval2 a b, t)] else []
   | _ => [])

/-- `\d{2}`: exactly two digits. -/
def g2exact : List Char → Option (Nat × List Char)
  | a :: b :: t => if a.isDigit && b.isDigit then some (dval2 a b, t) else none
  | _ => none

/-- `\d{4}`: exactly four digits. -/
def g4exact : List Char → Option (Nat × List Char)
  | a :: b :: c :: d :: t =>
    if a.isDigit && b.isDigit && c.isDigit && d.isDigit then
      some (1000 * dval a + 100 * dval b + 10 * dval c + dval d, t)
    else none
  | _ => none

/-- `\s+`: at least one whitespace character, consumed greedily (nothing
that can follow it in the fallback patterns matches whitespace, so the
greedy reading is exact). -/
def wsReq : List Char → Option (List Char)
  | c :: t => if pyWS c then some (t.dropWhile pyWS) else none
  | [] => none

/-- Match of fallback pattern 1,
`(\d{1,2})/(\d{1,2})/(\d{2,4})\s+(\d{1,2}):(\d{2})`, anchored at the
start of `l`; returns the five captured values. -/
def p1At (l : List Char) : Option (Nat × Nat × Nat × Nat × Nat) :=
  firstP (g12 l) fun av =>
    match av.2 with
    | '/' :: l2 =>
      firstP (g12 l2) fun bv =>
        match bv.2 with
        | '/' :: l4 =>
          firstP (g24 l4) fun cv =>
            match wsReq cv.2 with
            | some l6 =>
              firstP (g12 l6) fun hv =>
                match hv.2 with
                | ':' :: l8 => (g2exact l8).map fun miv => (av.1, bv.1, cv.1, hv.1, miv.1)
                | _ => none
            | none => none
        | _ => none
    | _ => none

/-- Match of fallback pattern 2,
`(\d{4})-(\d{1,2})-(\d{1,2})\s+(\d{1,2}):(\d{2})`, anchored at the start
of `l`. -/
def p2At (l : List Char) : Option (Nat × Nat × Nat × Nat × Nat) :=
  match g4exact l with
  | some yv =>
    (match yv.2 with
     | '-' :: l2 =>
       firstP (g12 l2) fun mv =>
         match mv.2 with
         | '-' :: l4 =>
           firstP (g12 l4) fun dv =>
             match wsReq dv.2 with
             | some l6 =>
               firstP (g12 l6) fun hv =>
                 match hv.2 with
                 | ':' :: l8 => (g2exact l8).map fun miv => (yv.1, mv.1, dv.1, hv.1, miv.1)
                 | _ => none
             | none => none
         | _ => none
     | _ => none)
  | none => none

/-- `re.search` for pattern 1: earliest starting position wins. -/
def searchP1 : List Char → Option (Nat × Nat × Nat × Nat × Nat)
  | [] => p1At []
  | l@(_ :: t) => p1At l <|> searchP1 t

/-- `re.search` for pattern 2: earliest starting position wins. -/
def searchP2 : List Char → Option (Nat × Nat × Nat × Nat × Nat)
  | [] => p2At []
  | l@(_ :: t) => p2At l <|> searchP2 t

/-- The two-digit-year pivot of the regex fallback (lines 255-257):
`if year < 100: year = 2000 + year if year < 50 else 1900 + year`. -/
def pivotYear (y : Nat) : Nat :=
  if y < 100 then (if y < 50 then 2000 + y else 1900 + y) else y

/-- Fallback pattern 1 at the `datetime` level (lines 234, 247-258):
`len(groups[0])` is at most 2 here, so the day/month guess applies:
a first group above 12 is the day, otherwise it is the month; the year
is pivoted; a `datetime` that raises makes the pattern fail (the source
catches the exception and moves to the next pattern). -/
def p1DT (ds : List Char) : Option DT :=
  match searchP1 ds with
  | none => none
  | some (a, b, c, h, mi) =>
    if 12 < a then mkDT (pivotYear c) b a h mi 0
    else mkDT (pivotYear c) a b h mi 0

/-- Fallback pattern 2 at the `datetime` level (lines 235, 245-258):
`groups[0]` has four digits, so the year-first branch applies; the pivot
still fires on four-digit years below 100 (for example `0023`). -/
def p2DT (ds : List Char) : Option DT :=
  match searchP2 ds with
  | none => none
  | some (y, mo, d, h, mi) => mkDT (pivotYear y) mo d h mi 0

/-- The regex-fallback loop (lines 232-261).  Pattern 3,
`(\d{1,2})\s+([A-Za-z]{3,})\s+(\d{4})\s+(\d{1,2}):(\d{2})`, never
produces a result: its second captured group is alphabetic, and the
source passes it to `int(...)` (as month or day), which always raises
and is swallowed by the `except Exception: pass`; the loop therefore
behaves as pattern 1 then pattern 2. -/
def tryFallbacksAll (ds : List Char) : Option (List Char) :=
  (p1DT ds).map fmtOut <|> (p2DT ds).map fmtOut

/-- `convert_to_dd_mm_yy` (line 204): empty input gives the sentinel
`Unknown`; otherwise parenthesised text and `GMT` offsets are removed,
the known formats are tried, then the regex fallbacks, and if everything
fails the original string is returned unchanged. -/
def convert_to_dd_mm_yy (ds : List Char) : List Char :=
  if ds = [] then chars "Unknown"
  else
    match tryFormatsAll (preprocessDate ds) with
    | some out => out
    | none =>
      match tryFallbacksAll (preprocessDate ds) with
      | some out => out
      | none => ds

/-! ### Record assembly (`parse_html`, lines 88-173) -/

/-- The `data["certificate"]` mapping: fields are `none` until a line sets
them (a missing key in the Python dict). -/
structure CertData where
  name : Option (List Char) := none
  effective : Option (List Char) := none
  expiration : Option (List Char) := none
  status : Option (List Char) := none
deriving DecidableEq, Repr

/-- The `data["mobileprovision"]` mapping. -/
structure MPData where
  name : Option (List Char) := none
  effective : Option (List Char) := none
  expiration : Option (List Char) := none
deriving DecidableEq, Repr

/-- The `data["binding_certificate_1"]` mapping. -/
structure BindData where
  status : Option (List Char) := none
  number : Option (List Char) := none
deriving DecidableEq, Repr

/-- The `data` dictionary built by `parse_html` (lines 101-105): exactly
the three record keys, each a possibly empty mapping. -/
structure ParseData where
  certificate : CertData
  mobileprovision : MPData
  binding_certificate_1 : BindData
deriving DecidableEq, Repr

/-- `find_index(prefixes, start, end)` (lines 107-114): the first index in
`[start, stop)` whose line starts with one of the prefixes. -/
def find_idx (lines : List (List Char)) (ps : List (List Char)) (start stop : Nat) : Option Nat :=
  (List.range' start (stop - start)).find? (fun i => ps.any (fun p => startsL p (lines.getD i [])))

/-- Python slice `lines[a:b]`. -/
def sliceL (lines : List (List Char)) (a b : Nat) : List (List Char) :=
  (lines.drop a).take (b - a)

/-- One iteration of the top-level certificate loop (lines 128-139):
plain dictionary assignment, so a later line with the same key overwrites. -/
def updCert (d : CertData) (ln : List Char) : CertData :=
  let kv := split_kv ln
  let v := clean_value kv.2
  let lk := toLowerL kv.1
  if startsL (chars "certname") lk then { d with name := some v }
  else if startsL (chars "effective date") lk then { d with effective := some v }
  else if startsL (chars "expiration date") lk then { d with expiration := some v }
  else if startsL (chars "certificate status") lk then { d with status := some v }
  else d

/-- One iteration of the mobileprovision loop (lines 144-153). -/
def updMP (d : MPData) (ln : List Char) : MPData :=
  let kv := split_kv ln
  let v := clean_value kv.2
  let lk := toLowerL kv.1
  if startsL (chars "mp name") lk then { d with name := some v }
  else if startsL (chars "effective date") lk then { d with effective := some v }
  else if startsL (chars "expiration date") lk then { d with expiration := some v }
  else d

/-- One iteration of the binding-certificate loop (lines 162-171): the
status is plain assignment, the number is kept only if not already set
(`if "number" not in data["binding_certificate_1"]`). -/
def updBind (d : BindData) (ln : List Char) : BindData :=
  let kv := split_kv ln
  let v := clean_value kv.2
  let lk := toLowerL kv.1
  if startsL (chars "certificate status") lk then { d with status := some v }
  else if startsL (chars "certificate number") lk then
    (match d.number with
     | none => { d with number := some v }
     | some _ => d)
  else d

/-- The line-driven part of `parse_html` (lines 101-173): locate the
certificate, mobileprovision and binding blocks by their opening keys and
fold the per-line updates over each slice. -/
def parse_lines (lines : List (List Char)) : ParseData :=
  let n := lines.length
  let cert_idx := find_idx lines [chars "CertName:", chars "CertName："] 0 n
  let mp_idx := find_idx lines [chars "MP Name:", chars "MP Name：", chars "MP Name"] 0 n
  let binding_idx :=
    match mp_idx with
    | some mi => find_idx lines [chars "Binding Certificates:", chars "Binding Certificates："] mi n
    | none => none
  let certPart : CertData :=
    match cert_idx with
    | none => {}
    | some ci =>
      let cend :=
        match mp_idx with
        | some m => m
        | none => match binding_idx with | some b => b | none => n
      (sliceL lines ci cend).foldl updCert {}
  let mpPart : MPData :=
    match mp_idx with
    | none => {}
    | some mi =>
      let mend := match binding_idx with | some b => b | none => n
      (sliceL lines mi mend).foldl updMP {}
  let bindPart : BindData :=
    match binding_idx with
    | none => {}
    | some bi =>
      match find_idx lines [chars "Certificate 1:", chars "Certificate 1：", chars "Certificate 1"] bi n with
      | none => {}
      | some c1 =>
        let bend :=
          match find_idx lines [chars "Certificate 2:", chars "Certificate 2：", chars "Certificate 2"] (c1 + 1) n with
          | some c2 => c2
          | none => n
        (sliceL lines (c1 + 1) bend).foldl updBind {}
  ⟨certPart, mpPart, bindPart⟩

/-! ### The markup tree and line extraction (`lines_from_alert_div`, lines 60-86) -/

mutual
/-- A markup node as `lines_from_alert_div` and the container search see
it: a `NavigableString`, or a `Tag` with its name, its `class` attribute
(empty list when absent) and its children.  A `<br>` is the tag named
`br`. -/
inductive HNode where
  | text : List Char → HNode
  | elem : List Char → List (List Char) → HNodeList → HNode
/-- A list of markup nodes (mutually inductive with `HNode` so that all
functions over the tree are structurally recursive). -/
inductive HNodeList where
  | nil : HNodeList
  | cons : HNode → HNodeList → HNodeList
end

mutual
/-- All `NavigableString` descendants of a node, in document order. -/
def nodeTexts : HNode → List (List Char)
  | .text s => [s]
  | .elem _ _ cs => listTexts cs
/-- All string descendants of a node list, in document order. -/
def listTexts : HNodeList → List (List Char)
  | .nil => []
  | .cons n t => nodeTexts n ++ listTexts t
end

/-- Join fragments with single spaces (`" ".join` / the separator of
`get_text(" ", ...)`). -/
def joinSp : List (List Char) → List Char
  | [] => []
  | [x] => x
  | x :: xs => x ++ ' ' :: joinSp xs

/-- `tag.get_text(" ", strip=True)` (line 78): each descendant string is
stripped, empty results are skipped, and the rest are joined with single
spaces. -/
def getTextSep (cs : HNodeList) : List Char :=
  joinSp (((listTexts cs).map trimL).filter (fun l => !l.isEmpty))

/-- Flush the current fragment buffer (lines 71-74 and 81-84): join with
spaces, strip, and emit one line if anything is left. -/
def flushCur (cur : List (List Char)) : List (List Char) :=
  if cur.isEmpty then []
  else
    let joined := trimL (joinSp cur)
    if joined.isEmpty then [] else [joined]

/-- The child-iteration of `lines_from_alert_div` (lines 64-84), with the
emitted lines and the current buffer as accumulators. -/
def lfadGo : HNodeList → List (List Char) → List (List Char) → List (List Char)
  | .nil, acc, cur => acc ++ flushCur cur
  | .cons n t, acc, cur =>
    match n with
    | .text s =>
      let txt := trimL s
      if txt.isEmpty then lfadGo t acc cur else lfadGo t acc (cur ++ [txt])
    | .elem nm _ cs =>
      if nm = chars "br" then lfadGo t (acc ++ flushCur cur) []
      else
        let txt := getTextSep cs
        if txt.isEmpty then lfadGo t acc cur else lfadGo t acc (cur ++ [txt])

/-- `lines_from_alert_div` (line 60): gather `br`-separated blocks, then
normalise whitespace in each and drop blank lines (line 86). -/
def lines_from_alert_div (children : HNodeList) : List (List Char) :=
  ((lfadGo children [] []).filter (fun ln => !(trimL ln).isEmpty)).map
    (fun ln => trimL (collapseWS ln))

mutual
/-- Whether a node contains no `<br>` marker anywhere. -/
def nodeBrFree : HNode → Bool
  | .text _ => true
  | .elem nm _ cs => !(nm == chars "br") && listBrFree cs
/-- Whether a node list contains no `<br>` marker anywhere. -/
def listBrFree : HNodeList → Bool
  | .nil => true
  | .cons n t => nodeBrFree n && listBrFree t
end

/-- The fragments the buffer accumulates over a `br`-free child list:
stripped top-level strings and flattened child tags, blanks skipped. -/
def topFrags : HNodeList → List (List Char)
  | .nil => []
  | .cons (.text s) t =>
    (let x := trimL s; if x.isEmpty then [] else [x]) ++ topFrags t
  | .cons (.elem _ _ cs) t =>
    (let x := getTextSep cs; if x.isEmpty then [] else [x]) ++ topFrags t

/-- The fully flattened, whitespace-normalised text of a child list. -/
def flattenedLine (cs : HNodeList) : List Char :=
  trimL (collapseWS (trimL (joinSp (topFrags cs))))

mutual
/-- The container search of `parse_html` (line 95): the first tag, in
document order (a tag before its descendants), whose name is `div`,
whose `class` attribute is present and non-empty, and one of whose
classes contains `alert`; the children of the match are returned. -/
def findAlertN : HNode → Option HNodeList
  | .text _ => none
  | .elem nm cls cs =>
    if nm == chars "div" && !cls.isEmpty && cls.any (fun c => containsSub (chars "alert") c) then
      some cs
    else findAlertL cs
/-- The container search over a node list, in document order. -/
def findAlertL : HNodeList → Option HNodeList
  | .nil => none
  | .cons n t => findAlertN n <|> findAlertL t
end

/-- The result of `parse_html`: either the error dictionary
`{"error": ...}` (line 97) or the three-record data dictionary. -/
inductive ParseResult where
  | err : List Char → ParseResult
  | ok : ParseData → ParseResult
deriving DecidableEq, Repr

/-- `parse_html` (line 88) over the already-parsed markup tree: find an
`alert` container (else report the error dictionary), extract its lines,
and assemble the records. -/
def parse_html (doc : HNodeList) : ParseResult :=
  match findAlertL doc with
  | none => .err (chars "No certificate info found in response")
  | some cs => .ok (parse_lines (lines_from_alert_div cs))

/-! ### Date comparison utilities (spec section 4.4) -/

/-- Does `l` end with `p`? -/
def endsL (p l : List Char) : Bool := startsL p.reverse l.reverse

/-- Modelled from the spec: strip a bare trailing literal `GMT` token
("strip the literal GMT token"), which the numeric-offset removal leaves
behind when no offset digits follow. -/
def dropTrailingGMT (l : List Char) : List Char :=
  if endsL (chars "GMT") l then trimL (l.take (l.length - 3)) else l

/-- strptime tokens for the observed shape `Aug 25 01:31:00 2025`
(`"%b %d %H:%M:%S %Y"`), one of the spec's example date shapes. -/
def fmt10 : List Tok := [.db, .ws, .dd, .ws, .dH, .lit ':', .dMi, .lit ':', .dS, .ws, .dY]

/-- Modelled from the spec: the DateNormalizer parse used by
`pickEarliest` / `pickLatest`.  `pickEarliest`/`pickLatest` and their
parse are absent from `src/` (the spec models the union of several
script iterations and only one is in the repository snapshot), so this
follows spec section 4.4: preprocess as the repository's normalizer does,
strip a bare trailing `GMT` token, then try the known format patterns —
including the observed `Aug 25 01:31:00 2025 GMT` shape — and the
permissive regex fallbacks. -/
def specParseDT (s : List Char) : Option DT :=
  let d := dropTrailingGMT (preprocessDate s)
  formatsDT d <|> strptimeF fmt10 d <|> p1DT d <|> p2DT d

/-- Chronological key of a parsed date-time (strictly monotone in
year, month, day, hour, minute, second). -/
def dtKey (t : DT) : Nat :=
  ((((t.y * 13 + t.m) * 32 + t.d) * 24 + t.h) * 60 + t.mi) * 62 + t.s

/-- Lexical (code-point) strict comparison of strings, the deterministic
fallback the spec prescribes when neither date parses. -/
def lexLt : List Char → List Char → Bool
  | [], [] => false
  | [], _ :: _ => true
  | _ :: _, [] => false
  | a :: as, b :: bs =>
    if a.toNat < b.toNat then true
    else if b.toNat < a.toNat then false
    else lexLt as bs

/-- Modelled from the spec: `pickEarliest(a, b)` (spec section 4.4,
absent from `src/`): empty input yields the other string; if both parse,
the chronologically earlier original string; if exactly one parses, that
one; if neither parses, the lexically smaller string. -/
def pickEarliest (a b : List Char) : List Char :=
  if a.isEmpty then b
  else if b.isEmpty then a
  else
    match specParseDT a, specParseDT b with
    | some x, some y => if dtKey x ≤ dtKey y then a else b
    | some _, none => a
    | none, some _ => b
    | none, none => if lexLt b a then b else a

/-- Modelled from the spec: `pickLatest(a, b)` (spec section 4.4, absent
from `src/`): empty input yields the other string; if both parse, the
chronologically later original string; if exactly one parses, that one;
if neither parses, the lexically larger string. -/
def pickLatest (a b : List Char) : List Char :=
  if a.isEmpty then b
  else if b.isEmpty then a
  else
    match specParseDT a, specParseDT b with
    | some x, some y => if dtKey x < dtKey y then b else a
    | some _, none => a
    | none, some _ => b
    | none, none => if lexLt a b then b else a

/-! ### Helper lemmas -/

theorem startsL_trans : ∀ (p q l : List Char), startsL p q = true → startsL q l = true → startsL p l = true := by
  intro p
  induction p with
  | nil => intro q l _ _; rfl
  | cons a as ih =>
    intro q l h1 h2
    cases q with
    | nil => simp [startsL] at h1
    | cons b bs =>
      cases l with
      | nil => simp [startsL] at h2
      | cons c cs =>
        simp only [startsL, Bool.and_eq_true, beq_iff_eq] at h1 h2 ⊢
        exact ⟨h1.1.trans h2.1, ih bs cs h1.2 h2.2⟩

theorem containsSub_mono : ∀ (p q l : List Char), startsL p q = true →
    containsSub q l = true → containsSub p l = true := by
  intro p q l hpq
  induction l with
  | nil =>
    intro h
    simp only [containsSub] at h ⊢
    exact startsL_trans p q [] hpq h
  | cons c t ih =>
    intro h
    simp only [containsSub, Bool.or_eq_true] at h ⊢
    cases h with
    | inl h => exact Or.inl (startsL_trans _ _ _ hpq h)
    | inr h => exact Or.inr (ih h)

theorem revoked_to_revok (c : List Char) :
    containsSub (chars "revoked") c = true → containsSub (chars "revok") c = true :=
  containsSub_mono _ _ _ (by decide)

theorem matchp12_to_match (c : List Char) :
    containsSub (chars "match with p12") c = true → containsSub (chars "match") c = true :=
  containsSub_mono _ _ _ (by decide)

/-- The code's keyword cascade agrees with the spec's reading of it:
the extra keyword `revoked` is subsumed by `revok`, and the extra
keyword `match with p12` is subsumed by `match`. -/
theorem codeCategorize_eq_specCategorize : ∀ c, codeCategorize c = specCategorize c := by
  intro c
  unfold codeCategorize specCategorize
  simp only [List.any_cons, List.any_nil]
  by_cases hr : containsSub (chars "revok") c = true
  · simp [hr]
  · have hr' : containsSub (chars "revok") c = false := by
      cases h : containsSub (chars "revok") c
      · rfl
      · exact absurd h hr
    have hrd : containsSub (chars "revoked") c = false := by
      cases h : containsSub (chars "revoked") c
      · rfl
      · exact absurd (revoked_to_revok c h) hr
    by_cases hm : containsSub (chars "match") c = true
    · simp [hr', hrd, hm, Bool.or_assoc]
    · have hm' : containsSub (chars "match") c = false := by
        cases h : containsSub (chars "match") c
        · rfl
        · exact absurd h hm
      have hmp : containsSub (chars "match with p12") c = false := by
        cases h : containsSub (chars "match with p12") c
        · rfl
        · exact absurd (matchp12_to_match c h) hm
      simp [hr', hrd, hm', hmp, Bool.or_assoc]

/-! ### Claims about the status normaliser -/

/-- Claim C2: for every raw status string, `normalise_status` returns the
category that the ordered keyword groups of the spec assign to the
cleaned lower-cased input — `revok` gives Revoked, else
`expired`/`expire` gives Expired, else `good`/`valid`/`active`/`match`/
`provisions all devices` gives Valid, otherwise Unknown — paired with
the unmodified original input, including on the four examples of the
spec. -/
theorem normalise_status_spec :
    (∀ s, normalise_status s = (specCategorize (statusCleaned s), s)) ∧
    normalise_status (chars "🟢Good") = (.Valid, chars "🟢Good") ∧
    normalise_status (chars "Revoked") = (.Revoked, chars "Revoked") ∧
    normalise_status (chars "🟢Match With P12") = (.Valid, chars "🟢Match With P12") ∧
    normalise_status (chars "") = (.Unknown, chars "") := by
  refine ⟨?_, by decide, by decide, by decide, by decide⟩
  intro s
  by_cases hs : s = []
  · subst hs; decide
  · simp [normalise_status, if_neg hs, codeCategorize_eq_specCategorize, statusCleaned]

/-- Claim C5: whenever the cleaned lower-cased status contains the
revocation keyword `revok`, `normalise_status` categorises it Revoked —
the Revoked check precedes the Valid check, so co-occurring Valid-group
keywords cannot mask it. -/
theorem revoked_precedence : ∀ s, containsSub (chars "revok") (statusCleaned s) = true →
    (normalise_status s).1 = .Revoked := by
  intro s h
  by_cases hs : s = []
  · subst hs; exact absurd h (by decide)
  · simp only [statusCleaned] at h
    simp [normalise_status, if_neg hs, codeCategorize, h]

/-- Witness for C5 at `"Not Revoked, Valid"`, which contains both the
revocation keyword and the Valid-group keyword `valid`. -/
theorem revoked_precedence_witness :
    containsSub (chars "revok") (statusCleaned (chars "Not Revoked, Valid")) = true ∧
    containsSub (chars "valid") (statusCleaned (chars "Not Revoked, Valid")) = true ∧
    (normalise_status (chars "Not Revoked, Valid")).1 = .Revoked :=
  ⟨by decide, by decide, revoked_precedence _ (by decide)⟩

/-! ### Claims about field overwriting (C1) -/

/-- Claim C1 counterexample: the claim asserts first-writer-wins for
every record field, but the parser's dictionary writes are plain
assignments — with two `CertName` lines the certificate name is the
second value `B`, not the first value `A` that first-writer-wins would
require. -/
theorem certname_overwrite_cex :
    (parse_lines [chars "CertName: A", chars "CertName: B"]).certificate.name = some (chars "B") ∧
    (parse_lines [chars "CertName: A", chars "CertName: B"]).certificate.name ≠ some (chars "A") := by
  constructor
  · rfl
  · decide

/-- Claim C1 as amended: a later line whose key maps to the same field
overwrites the earlier value (last-writer-wins) for every record field —
certificate name, effective date, expiration date and status;
mobileprovision name, effective date and expiration date; binding
certificate status — for every choice of payloads, with the single
exception of the binding certificate number, which is written only when
absent (first-writer-wins) and so keeps the first value. -/
theorem parse_lines_writer_discipline :
    (∀ v1 v2 e1 e2 x1 x2 s1 s2 : List Char,
      (parse_lines [chars "CertName: " ++ v1, chars "CertName: " ++ v2,
          chars "Effective Date: " ++ e1, chars "Effective Date: " ++ e2,
          chars "Expiration Date: " ++ x1, chars "Expiration Date: " ++ x2,
          chars "Certificate Status: " ++ s1, chars "Certificate Status: " ++ s2]).certificate
        = { name := some (clean_value (split_kv (chars "CertName: " ++ v2)).2),
            effective := some (clean_value (split_kv (chars "Effective Date: " ++ e2)).2),
            expiration := some (clean_value (split_kv (chars "Expiration Date: " ++ x2)).2),
            status := some (clean_value (split_kv (chars "Certificate Status: " ++ s2)).2) }) ∧
    (∀ m1 m2 e1 e2 x1 x2 : List Char,
      (parse_lines [chars "MP Name: " ++ m1, chars "MP Name: " ++ m2,
          chars "Effective Date: " ++ e1, chars "Effective Date: " ++ e2,
          chars "Expiration Date: " ++ x1, chars "Expiration Date: " ++ x2]).mobileprovision
        = { name := some (clean_value (split_kv (chars "MP Name: " ++ m2)).2),
            effective := some (clean_value (split_kv (chars "Effective Date: " ++ e2)).2),
            expiration := some (clean_value (split_kv (chars "Expiration Date: " ++ x2)).2) }) ∧
    (∀ s1 s2 w1 w2 : List Char,
      (parse_lines [chars "MP Name: P", chars "Binding Certificates:", chars "Certificate 1:",
          chars "Certificate Status: " ++ s1, chars "Certificate Status: " ++ s2,
          chars "Certificate Number (HEX): " ++ w1,
          chars "Certificate Number (Decimal): " ++ w2]).binding_certificate_1
        = { status := some (clean_value (split_kv (chars "Certificate Status: " ++ s2)).2),
            number := some (clean_value (split_kv (chars "Certificate Number (HEX): " ++ w1)).2) }) :=
  ⟨fun _ _ _ _ _ _ _ _ => rfl, fun _ _ _ _ _ _ => rfl, fun _ _ _ _ => rfl⟩

/-! ### Claims about date normalisation (C3, C6, C7) -/

/-- Claim C3 counterexample: on `2023-02-08 19:07:10 GMT+08:00` the claim
requires the `+08:00` offset to be retained in the canonical output, but
the preprocessing regex removes the whole `GMT+08:00` token and the
output `08/02/23 19:07` carries no offset at all. -/
theorem convert_gmt_offset_dropped :
    convert_to_dd_mm_yy (chars "2023-02-08 19:07:10 GMT+08:00") = chars "08/02/23 19:07" ∧
    containsSub (chars "+08") (convert_to_dd_mm_yy (chars "2023-02-08 19:07:10 GMT+08:00")) = false ∧
    containsSub (chars "+") (convert_to_dd_mm_yy (chars "2023-02-08 19:07:10 GMT+08:00")) = false := by
  refine ⟨?_, by decide, by decide⟩
  rfl

/-- Claim C3 as amended: a trailing `GMT±HH:MM` offset is removed in its
entirety (the literal `GMT` together with its sign, digits and colon) and
the canonical output is offset-naive `DD/MM/YY HH:MM`; on the spec's
example the date and time are preserved. -/
theorem convert_gmt_offset_naive :
    preprocessDate (chars "2023-02-08 19:07:10 GMT+08:00") = chars "2023-02-08 19:07:10" ∧
    removeGMT (chars "GMT+08:00") = chars "" ∧
    convert_to_dd_mm_yy (chars "2023-02-08 19:07:10 GMT+08:00") = chars "08/02/23 19:07" := by
  refine ⟨?_, ?_, ?_⟩ <;> rfl

/-- Claim C6 counterexample: the claim says that whenever every format
and every fallback fails the original string is returned unchanged; on
the empty string every format and fallback fails, yet the function
returns the sentinel `Unknown`, not the (empty) original. -/
theorem convert_empty_returns_unknown :
    tryFormatsAll (preprocessDate (chars "")) = none ∧
    tryFallbacksAll (preprocessDate (chars "")) = none ∧
    convert_to_dd_mm_yy (chars "") = chars "Unknown" ∧
    convert_to_dd_mm_yy (chars "") ≠ chars "" := by
  refine ⟨rfl, rfl, rfl, by decide⟩

/-- Claim C6 as amended: `convert_to_dd_mm_yy` is a total function, and
for every nonempty input on which every known format pattern and every
regex fallback fails it returns the original string unchanged; the empty
string instead yields the sentinel `Unknown`. -/
theorem convert_unparsed_identity : ∀ ds, ds ≠ [] →
    tryFormatsAll (preprocessDate ds) = none →
    tryFallbacksAll (preprocessDate ds) = none →
    convert_to_dd_mm_yy ds = ds := by
  intro ds h h1 h2
  unfold convert_to_dd_mm_yy
  rw [if_neg h, h1, h2]

/-- Witness for the amended C6 at the unparseable input `hello`. -/
theorem convert_unparsed_identity_witness :
    chars "hello" ≠ [] ∧
    tryFormatsAll (preprocessDate (chars "hello")) = none ∧
    tryFallbacksAll (preprocessDate (chars "hello")) = none ∧
    convert_to_dd_mm_yy (chars "hello") = chars "hello" :=
  ⟨by decide, rfl, rfl, convert_unparsed_identity _ (by decide) rfl rfl⟩

/-- Claim C7: in the regex fallbacks every two-digit year value is
pivoted — below 50 to the 2000s, from 50 to the 1900s — and the pivot is
observable end to end: `29/02/00` is accepted because year 00 becomes
the leap year 2000, and `85` becomes 1985. -/
theorem fallback_year_pivot :
    (∀ y, y < 50 → pivotYear y = 2000 + y) ∧
    (∀ y, 50 ≤ y → y < 100 → pivotYear y = 1900 + y) ∧
    convert_to_dd_mm_yy (chars "29/02/00 06:07:30") = chars "29/02/00 06:07" ∧
    convert_to_dd_mm_yy (chars "08/02/85 06:07:30") = chars "02/08/85 06:07" := by
  refine ⟨?_, ?_, rfl, rfl⟩
  · intro y h
    unfold pivotYear
    rw [if_pos (by omega), if_pos h]
  · intro y h1 h2
    unfold pivotYear
    rw [if_pos h2, if_neg (by omega)]

/-- Witness for C7: the pivot evaluated on a 2000s and a 1900s year. -/
theorem fallback_year_pivot_witness :
    pivotYear 23 = 2000 + 23 ∧ pivotYear 85 = 1900 + 85 :=
  ⟨fallback_year_pivot.1 23 (by decide), fallback_year_pivot.2.1 85 (by decide) (by decide)⟩

/-! ### Claims about the binding-certificates section (C4) -/

/-- Claim C4 counterexample: a Binding Certificates section with three
`Certificate n` entries is claimed to yield three binding records, but
the parser's output holds a single binding record
(`binding_certificate_1`), populated from the lines before
`Certificate 2` only — the statuses `BBB` and `CCC` of entries 2 and 3
appear nowhere in the result. -/
theorem binding_three_entries_cex :
    parse_lines [chars "MP Name: P", chars "Binding Certificates:", chars "Certificate 1:",
        chars "Certificate Status: AAA", chars "Certificate 2:", chars "Certificate Status: BBB",
        chars "Certificate 3:", chars "Certificate Status: CCC"]
      = ⟨{}, { name := some (chars "P") }, { status := some (chars "AAA") }⟩ ∧
    (parse_lines [chars "MP Name: P", chars "Binding Certificates:", chars "Certificate 1:",
        chars "Certificate Status: AAA", chars "Certificate 2:", chars "Certificate Status: BBB",
        chars "Certificate 3:", chars "Certificate Status: CCC"]).binding_certificate_1.status
      ≠ some (chars "BBB") := by
  constructor
  · rfl
  · decide

/-- Claim C4 as amended: on a Binding Certificates section with three
`Certificate n` entries the parser produces exactly one binding record,
for `Certificate 1` only, populated (for every choice of payloads) with
the Certificate Status lines strictly between the `Certificate 1` line
and the `Certificate 2` line; entries 2 and 3 are ignored. -/
theorem binding_first_entry_only :
    ∀ s1 s2 s3 : List Char,
      parse_lines [chars "MP Name: P", chars "Binding Certificates:", chars "Certificate 1:",
          chars "Certificate Status: " ++ s1, chars "Certificate 2:",
          chars "Certificate Status: " ++ s2, chars "Certificate 3:",
          chars "Certificate Status: " ++ s3]
        = ⟨{}, { name := some (chars "P") },
           { status := some (clean_value (split_kv (chars "Certificate Status: " ++ s1)).2) }⟩ :=
  fun _ _ _ => rfl

/-! ### Claim about container handling (C10) -/

/-- Claim C10: `parse_html` never fails — when no alert container is
present in the document it returns the error dictionary, and when a
container is found it returns the assembled data, which by construction
carries exactly the three record keys `certificate`, `mobileprovision`
and `binding_certificate_1`, each a possibly empty mapping. -/
theorem parse_html_dichotomy :
    (∀ doc, findAlertL doc = none →
      parse_html doc = .err (chars "No certificate info found in response")) ∧
    (∀ doc cs, findAlertL doc = some cs →
      parse_html doc = .ok (parse_lines (lines_from_alert_div cs))) := by
  constructor
  · intro doc h
    unfold parse_html
    rw [h]
  · intro doc cs h
    unfold parse_html
    rw [h]

/-- Witness for C10: a document without any alert container yields the
error dictionary; a document with one yields the three-record data. -/
theorem parse_html_dichotomy_witness :
    findAlertL (.cons (.elem (chars "p") [] .nil) .nil) = none ∧
    parse_html (.cons (.elem (chars "p") [] .nil) .nil)
      = .err (chars "No certificate info found in response") ∧
    findAlertL (.cons (.elem (chars "div") [chars "alert alert-info"]
        (.cons (.text (chars "CertName: Acme")) .nil)) .nil)
      = some (.cons (.text (chars "CertName: Acme")) .nil) ∧
    parse_html (.cons (.elem (chars "div") [chars "alert alert-info"]
        (.cons (.text (chars "CertName: Acme")) .nil)) .nil)
      = .ok (parse_lines (lines_from_alert_div (.cons (.text (chars "CertName: Acme")) .nil))) :=
  ⟨rfl, parse_html_dichotomy.1 _ rfl, rfl, parse_html_dichotomy.2 _ _ rfl⟩

/-! ### Claim about the date comparison utilities (C8) -/

/-- Claim C8: `pickEarliest` / `pickLatest` return the chronologically
earlier/later original string when both inputs parse — whichever of the
two arguments that is, in either order — the parsing one when exactly
one parses, the lexical extremum when neither parses, the other string
when one input is empty (and empty when both are), and on the spec's
`Aug 25 01:31:00 2025/2026 GMT` example the earlier and later strings
respectively. -/
theorem pick_earliest_latest_spec :
    (∀ a b x y, a.isEmpty = false → b.isEmpty = false →
      specParseDT a = some x → specParseDT b = some y → dtKey x < dtKey y →
      pickEarliest a b = a ∧ pickLatest a b = b) ∧
    (∀ a b x y, a.isEmpty = false → b.isEmpty = false →
      specParseDT a = some x → specParseDT b = some y → dtKey y < dtKey x →
      pickEarliest a b = b ∧ pickLatest a b = a) ∧
    (∀ a b x, a.isEmpty = false → b.isEmpty = false →
      specParseDT a = some x → specParseDT b = none →
      pickEarliest a b = a ∧ pickLatest a b = a) ∧
    (∀ a b x, a.isEmpty = false → b.isEmpty = false →
      specParseDT a = none → specParseDT b = some x →
      pickEarliest a b = b ∧ pickLatest a b = b) ∧
    (∀ a b, a.isEmpty = false → b.isEmpty = false →
      specParseDT a = none → specParseDT b = none →
      pickEarliest a b = (if lexLt b a then b else a) ∧
      pickLatest a b = (if lexLt a b then b else a)) ∧
    (∀ b, pickEarliest [] b = b ∧ pickLatest [] b = b) ∧
    (∀ a, a.isEmpty = false → pickEarliest a [] = a ∧ pickLatest a [] = a) ∧
    (pickEarliest (chars "Aug 25 01:31:00 2025 GMT") (chars "Aug 25 01:31:00 2026 GMT")
       = chars "Aug 25 01:31:00 2025 GMT" ∧
     pickLatest (chars "Aug 25 01:31:00 2025 GMT") (chars "Aug 25 01:31:00 2026 GMT")
       = chars "Aug 25 01:31:00 2026 GMT") := by
  refine ⟨?_, ?_, ?_, ?_, ?_, ?_, ?_, ?_⟩
  · intro a b x y ha hb hpa hpb hlt
    constructor
    · simp [pickEarliest, ha, hb, hpa, hpb, Nat.le_of_lt hlt]
    · simp [pickLatest, ha, hb, hpa, hpb, hlt]
  · intro a b x y ha hb hpa hpb hlt
    have hnle : ¬(dtKey x ≤ dtKey y) := by omega
    have hnlt : ¬(dtKey x < dtKey y) := by omega
    constructor
    · simp [pickEarliest, ha, hb, hpa, hpb, hnle]
    · simp [pickLatest, ha, hb, hpa, hpb, hnlt]
  · intro a b x ha hb hpa hpb
    constructor
    · simp [pickEarliest, ha, hb, hpa, hpb]
    · simp [pickLatest, ha, hb, hpa, hpb]
  · intro a b x ha hb hpa hpb
    constructor
    · simp [pickEarliest, ha, hb, hpa, hpb]
    · simp [pickLatest, ha, hb, hpa, hpb]
  · intro a b ha hb hpa hpb
    constructor
    · simp [pickEarliest, ha, hb, hpa, hpb]
    · simp [pickLatest, ha, hb, hpa, hpb]
  · intro b
    constructor
    · simp [pickEarliest]
    · simp [pickLatest]
  · intro a ha
    constructor
    · simp [pickEarliest, ha]
    · simp [pickLatest, ha]
  · constructor
    · rfl
    · rfl

/-- Witness for C8: the two both-parse clauses applied with the earlier
date in first and in second position, and the one-parses clause applied
at a parsing and a non-parsing input. -/
theorem pick_earliest_latest_spec_witness :
    (pickEarliest (chars "08/02/23 06:07") (chars "09/02/23 06:07") = chars "08/02/23 06:07" ∧
     pickLatest (chars "08/02/23 06:07") (chars "09/02/23 06:07") = chars "09/02/23 06:07") ∧
    (pickEarliest (chars "09/02/23 06:07") (chars "08/02/23 06:07") = chars "08/02/23 06:07" ∧
     pickLatest (chars "09/02/23 06:07") (chars "08/02/23 06:07") = chars "09/02/23 06:07") ∧
    (pickEarliest (chars "08/02/23 06:07") (chars "zzz") = chars "08/02/23 06:07" ∧
     pickLatest (chars "08/02/23 06:07") (chars "zzz") = chars "08/02/23 06:07") :=
  ⟨pick_earliest_latest_spec.1 (chars "08/02/23 06:07") (chars "09/02/23 06:07")
     ⟨2023, 8, 2, 6, 7, 0⟩ ⟨2023, 9, 2, 6, 7, 0⟩ rfl rfl rfl rfl (by decide),
   pick_earliest_latest_spec.2.1 (chars "09/02/23 06:07") (chars "08/02/23 06:07")
     ⟨2023, 9, 2, 6, 7, 0⟩ ⟨2023, 8, 2, 6, 7, 0⟩ rfl rfl rfl rfl (by decide),
   pick_earliest_latest_spec.2.2.1 (chars "08/02/23 06:07") (chars "zzz")
     ⟨2023, 8, 2, 6, 7, 0⟩ rfl rfl rfl rfl⟩

/-! ### Lemmas for the line extractor (C9) -/

theorem dropWhile_dropWhile (p : Char → Bool) (l : List Char) :
    (l.dropWhile p).dropWhile p = l.dropWhile p := by
  induction l with
  | nil => rfl
  | cons c t ih =>
    by_cases h : p c
    · simp [List.dropWhile_cons, h, ih]
    · simp [List.dropWhile_cons, h]

theorem exists_dropWhile_append (p : Char → Bool) (l : List Char) :
    ∃ w, l = w ++ l.dropWhile p := by
  induction l with
  | nil => exact ⟨[], rfl⟩
  | cons c t ih =>
    by_cases h : p c
    · obtain ⟨w, hw⟩ := ih
      exact ⟨c :: w, by simp [List.dropWhile_cons, h]; exact hw⟩
    · exact ⟨[], by simp [List.dropWhile_cons, h]⟩

theorem head_dropWhile_false (p : Char → Bool) :
    ∀ (l : List Char) (c : Char) (t : List Char), l.dropWhile p = c :: t → p c = false := by
  intro l
  induction l with
  | nil => intro c t h; simp [List.dropWhile] at h
  | cons a as ih =>
    intro c t h
    by_cases hp : p a
    · rw [List.dropWhile_cons, if_pos hp] at h
      exact ih c t h
    · rw [List.dropWhile_cons, if_neg hp] at h
      cases h
      simp [hp]

theorem trimL_trimL (l : List Char) : trimL (trimL l) = trimL l := by
  unfold trimL
  have hvrev : (((l.dropWhile pyWS).reverse.dropWhile pyWS).reverse).dropWhile pyWS
      = ((l.dropWhile pyWS).reverse.dropWhile pyWS).reverse := by
    cases hv : ((l.dropWhile pyWS).reverse.dropWhile pyWS).reverse with
    | nil => rfl
    | cons c t =>
      obtain ⟨w, hw⟩ := exists_dropWhile_append pyWS (l.dropWhile pyWS).reverse
      have hu2 : l.dropWhile pyWS
          = ((l.dropWhile pyWS).reverse.dropWhile pyWS).reverse ++ w.reverse := by
        have h3 := congrArg List.reverse hw
        simpa [List.reverse_append] using h3
      rw [hv] at hu2
      rw [List.cons_append] at hu2
      have hc : pyWS c = false := head_dropWhile_false pyWS _ c _ hu2
      simp [List.dropWhile_cons, hc]
  rw [hvrev, List.reverse_reverse, dropWhile_dropWhile]

/-- List-shaped induction for `HNodeList` (the nodes themselves need no
induction hypothesis in the extraction proofs). -/
theorem HNodeList_ind (P : HNodeList → Prop) (h0 : P .nil)
    (h1 : ∀ n t, P t → P (.cons n t)) : ∀ l, P l :=
  fun l => @HNodeList.rec (fun _ => True) P (fun _ => trivial) (fun _ _ _ _ => trivial)
    h0 (fun n t _ iht => h1 n t iht) l

/-- Over a `br`-free child list the extraction loop never flushes: it
appends every fragment to the buffer and flushes once at the end. -/
theorem lfadGo_brFree : ∀ (cs : HNodeList), listBrFree cs = true →
    ∀ (acc cur : List (List Char)),
      lfadGo cs acc cur = acc ++ flushCur (cur ++ topFrags cs) := by
  intro cs
  induction cs using HNodeList_ind with
  | h0 => intro _ acc cur; simp [lfadGo, topFrags]
  | h1 n t ih =>
    intro h acc cur
    have hparts : nodeBrFree n = true ∧ listBrFree t = true := by
      simpa [listBrFree, Bool.and_eq_true] using h
    cases n with
    | text s =>
      by_cases hx : (trimL s).isEmpty
      · simp [lfadGo, hx, topFrags, ih hparts.2]
      · simp [lfadGo, hx, topFrags, ih hparts.2, List.append_assoc]
    | elem nm cls cs2 =>
      have hnm : ¬(nm = chars "br") := by
        intro hEq
        have h5 := hparts.1
        simp [nodeBrFree, hEq] at h5
      by_cases hx : (getTextSep cs2).isEmpty
      · simp [lfadGo, hnm, hx, topFrags, ih hparts.2]
      · simp [lfadGo, hnm, hx, topFrags, ih hparts.2, List.append_assoc]

/-! ### Claim about the line extractor (C9) -/

/-- Claim C9: over a node tree with no `br` markers anywhere,
`lines_from_alert_div` yields at most one line, namely the fully
flattened whitespace-normalised text when that is nonempty and nothing
when the flattened text is empty or whitespace-only; absent (childless)
input yields the empty sequence. -/
theorem lines_no_br_single :
    (∀ cs : HNodeList, listBrFree cs = true →
      (lines_from_alert_div cs).length ≤ 1 ∧
      lines_from_alert_div cs
        = (if (trimL (joinSp (topFrags cs))).isEmpty then [] else [flattenedLine cs])) ∧
    lines_from_alert_div .nil = [] := by
  constructor
  · intro cs h
    have hgo := lfadGo_brFree cs h [] []
    simp only [List.nil_append] at hgo
    unfold lines_from_alert_div
    rw [hgo]
    unfold flushCur
    by_cases he : (topFrags cs).isEmpty
    · have : topFrags cs = [] := by
        cases hx : topFrags cs
        · rfl
        · rw [hx] at he; simp at he
      rw [this]
      simp [joinSp, trimL]
    · rw [if_neg (by simpa using he)]
      by_cases hj : (trimL (joinSp (topFrags cs))).isEmpty
      · rw [if_pos hj, if_pos hj]
        simp
      · rw [if_neg hj, if_neg hj]
        have htr : trimL (trimL (joinSp (topFrags cs))) = trimL (joinSp (topFrags cs)) :=
          trimL_trimL (joinSp (topFrags cs))
        constructor
        · simp [List.filter, htr, hj]
        · simp [List.filter, htr, hj, flattenedLine]
  · rfl

/-- Witness for C9 at a two-fragment, `br`-free tree. -/
theorem lines_no_br_single_witness :
    (lines_from_alert_div (.cons (.text (chars " Hello  ")) (.cons
        (.elem (chars "span") [] (.cons (.text (chars "World")) .nil)) .nil))).length ≤ 1 ∧
    lines_from_alert_div (.cons (.text (chars " Hello  ")) (.cons
        (.elem (chars "span") [] (.cons (.text (chars "World")) .nil)) .nil))
      = (if (trimL (joinSp (topFrags (.cons (.text (chars " Hello  ")) (.cons
            (.elem (chars "span") [] (.cons (.text (chars "World")) .nil)) .nil))))).isEmpty
         then []
         else [flattenedLine (.cons (.text (chars " Hello  ")) (.cons
            (.elem (chars "span") [] (.cons (.text (chars "World")) .nil)) .nil))]) :=
  lines_no_br_single.1 _ (by decide)
